import Mathlib

/-!
Shallow embedding of the `specification` package of the Nut container-image
builder (`src/specification/spec.go`) and verification of its specification.

Strings are modelled as `List Char` (`GoStr`).  External collaborators (the
LXC runtime driver, the host filesystem, YAML marshalling) are modelled by a
`Driver` record of oracle functions, mirroring the calls the Go code makes.
Go panics (nil-pointer dereference, slice index out of range) are modelled by
the `Res.crash` outcome; returned `error` values by `Res.err`.
-/

/-- Go strings, modelled as character lists so that the string manipulation
done by the builder can be reasoned about by structural induction. -/
abbrev GoStr := List Char

/-- Embed a Lean string literal as a `GoStr`. -/
def gs (s : String) : GoStr := s.data

/-- Models `strings.HasPrefix s pre`. -/
def strStarts : GoStr → GoStr → Bool
  | _, [] => true
  | [], _ :: _ => false
  | c :: s, p :: ps => c = p && strStarts s ps

/-- Accumulator loop for `fields`: `cur` holds the current in-progress token
(reversed).  Models the maximal-runs-of-non-space semantics of
`strings.Fields`. -/
def fieldsAux : GoStr → GoStr → List GoStr
  | [], cur => if cur = [] then [] else [cur.reverse]
  | c :: rest, cur =>
    if c.isWhitespace then
      if cur = [] then fieldsAux rest []
      else cur.reverse :: fieldsAux rest []
    else fieldsAux rest (c :: cur)

/-- Models `strings.Fields`: splits around maximal runs of whitespace,
producing no empty tokens.  (`Char.isWhitespace` stands in for
`unicode.IsSpace`; they agree on ASCII input.) -/
def fields (s : GoStr) : List GoStr := fieldsAux s []

/-- Models `strings.Split s sep` for a single-character separator, as used by
the LABEL handler (`strings.Split(words[i], "=")`): every occurrence of the
separator splits, and `Split("", sep) = [""]`. -/
def splitOnChar (sep : Char) : GoStr → List GoStr
  | [] => [[]]
  | c :: rest =>
    let r := splitOnChar sep rest
    if c = sep then [] :: r
    else
      match r with
      | [] => [[c]]
      | h :: t => (c :: h) :: t

/-- Models `strings.Join xs " "`. -/
def joinSpace : List GoStr → GoStr
  | [] => []
  | [x] => x
  | x :: y :: xs => x ++ ' ' :: joinSpace (y :: xs)

/-- Models `filepath.Join a b`, eliding the `Clean` normalisation (the joined
paths are only ever passed opaquely to the external driver). -/
def joinPath (a b : GoStr) : GoStr :=
  if a = [] then b else if b = [] then a else a ++ '/' :: b

/-- Models `filepath.Base` on Unix paths: empty path gives ".", a path of
only slashes gives "/", otherwise the last component after trailing slashes
are removed. -/
def baseName (p : GoStr) : GoStr :=
  if p = [] then gs "."
  else
    let q := (p.reverse.dropWhile (fun c => c = '/')).reverse
    if q = [] then gs "/"
    else (q.reverse.takeWhile (fun c => c ≠ '/')).reverse

/-- Decimal value of a digit string (no validation), the accumulator loop of
`strconv.ParseUint`. -/
def digitsToNat (s : GoStr) : Nat :=
  s.foldl (fun acc c => acc * 10 + (c.toNat - '0'.toNat)) 0

/-- Models `strconv.ParseUint(s, 10, 64)`: returns the parsed value paired
with a success flag.  On a syntax error Go returns the value 0, on a range
error the value `2^64 - 1`; the EXPOSE handler appends the returned value
even when the flag is false. -/
def goParseUint64 (s : GoStr) : Nat × Bool :=
  if s ≠ [] ∧ s.all Char.isDigit then
    let v := digitsToNat s
    if v < 2 ^ 64 then (v, true) else (2 ^ 64 - 1, false)
  else (0, false)

/-! ### Statement parser (`Spec.Parse`, spec.go lines 40-84) -/

/-- Models the regexp test `^#`: the line begins with `#`. -/
def lineIsComment (l : GoStr) : Bool :=
  match l with
  | [] => false
  | c :: _ => c = '#'

/-- Models the regexp test `\\$`: the line ends with a backslash. -/
def lineEndsBackslash (l : GoStr) : Bool :=
  match l.reverse with
  | [] => false
  | c :: _ => c = '\\'

/-- Models `strings.TrimRight(line, "\\")`: drop every trailing backslash. -/
def trimRightBackslash (l : GoStr) : GoStr :=
  (l.reverse.dropWhile (fun c => c = '\\')).reverse

/-- Models the test `strings.TrimSpace(line) == ""`: the line is empty or
whitespace-only. -/
def lineIsBlank (l : GoStr) : Bool := l.all Char.isWhitespace

/-- One iteration of the scanner loop in `Spec.Parse`: the accumulator pairs
the statements appended so far with the pending `previousStatement`.  The
branch order mirrors the Go `if`/`else if` chain: comment, continuation,
blank, completion. -/
def parseStep : List GoStr × GoStr → GoStr → List GoStr × GoStr
  | (stmts, prev), line =>
    if lineIsComment line then (stmts, prev)
    else if lineEndsBackslash line then
      if prev ≠ [] then (stmts, prev ++ ' ' :: trimRightBackslash line)
      else (stmts, trimRightBackslash line)
    else if lineIsBlank line then (stmts, prev)
    else if prev ≠ [] then (stmts ++ [prev ++ ' ' :: line], [])
    else (stmts ++ [line], [])

/-- The scanner loop of `Spec.Parse` run over the file's lines, starting from
already-accumulated statements `stmts` and pending statement `prev`. -/
def parseLinesFrom (stmts : List GoStr) (prev : GoStr) (lines : List GoStr) :
    List GoStr × GoStr :=
  lines.foldl parseStep (stmts, prev)

/-- The statements `Spec.Parse` emits for a script, starting from a fresh
`Spec` (`previousStatement` starts empty; a pending accumulator left at
end-of-stream is dropped). -/
def parseLines (lines : List GoStr) : List GoStr :=
  (parseLinesFrom [] [] lines).1

/-- The parser-facing fields of the Go `Spec` struct. -/
structure BuildSpec where
  id : GoStr
  statements : List GoStr
deriving DecidableEq, Repr

/-- Models `Spec.Parse`: appends the parsed statements of the script's lines
to the receiver's `Statements`. -/
def parseInto (sp : BuildSpec) (lines : List GoStr) : BuildSpec :=
  { sp with statements := (parseLinesFrom sp.statements [] lines).1 }

/-! ### Data model (`Manifest`, `BuilderState`) -/

/-- The image-metadata record accumulated by the build (`Manifest` in
manifest.go; its fields are those serialised by `writeManifest` and mutated
by `Spec.Build`).  The Go `map[string]string` of labels is modelled as an
association list in insertion order with in-place overwrite. -/
structure Manifest where
  env : List GoStr
  labels : List (GoStr × GoStr)
  exposedPorts : List Nat
  maintainers : List GoStr
  workDir : GoStr
  user : GoStr
  entryPoint : List GoStr
deriving DecidableEq, Repr

/-- The zero `Manifest` built at the top of `Spec.Build` (`Labels` and
`ExposedPorts` allocated empty, every other field at its zero value). -/
def emptyManifest : Manifest :=
  { env := [], labels := [], exposedPorts := [], maintainers := []
    workDir := [], user := [], entryPoint := [] }

/-- Models the Go map write `Labels[k] = v`: overwrite the binding of `k` if
present, otherwise append it. -/
def setLabel : List (GoStr × GoStr) → GoStr → GoStr → List (GoStr × GoStr)
  | [], k, v => [(k, v)]
  | (k0, v0) :: rest, k, v =>
    if k0 = k then (k, v) :: rest else (k0, v0) :: setLabel rest k v

/-- The per-build `BuilderState` (spec.go lines 20-25).  The container handle
is `none` until a FROM directive clones one; handles themselves are opaque
numbers issued by the driver. -/
structure BuilderState where
  container : Option Nat
  env : List GoStr
  cwd : GoStr
  manifest : Manifest
deriving DecidableEq, Repr

/-- The fresh `BuilderState` installed at the top of `Spec.Build`. -/
def initState : BuilderState :=
  { container := none, env := [], cwd := [], manifest := emptyManifest }

/-- Equality of driver results is decidable, so concrete runs can be checked
by evaluation. -/
instance exceptDecEq {ε α : Type} [DecidableEq ε] [DecidableEq α] :
    DecidableEq (Except ε α) := fun a b =>
  match a, b with
  | .ok x, .ok y =>
    if h : x = y then isTrue (by rw [h]) else isFalse (by intro hc; cases hc; exact h rfl)
  | .error x, .error y =>
    if h : x = y then isTrue (by rw [h]) else isFalse (by intro hc; cases hc; exact h rfl)
  | .ok _, .error _ => isFalse (by intro hc; cases hc)
  | .error _, .ok _ => isFalse (by intro hc; cases hc)

/-- Outcome of running a piece of the builder: a normal result, a returned Go
`error`, or a Go panic (nil-pointer dereference / index out of range).
`log.Fatalf` (which exits the process) is modelled as `err` carrying the
fatal message. -/
inductive Res (α : Type) where
  | ok : α → Res α
  | err : GoStr → Res α
  | crash : Res α
deriving DecidableEq, Repr

/-- Externally visible actions the builder performs, recorded as a trace so
that claims such as "fails before any command executes" can be stated. -/
inductive BuildEvent where
  | cloneEv (parent volume : GoStr)
  | loadEv (parent : GoStr)
  | writeFileEv (path content : GoStr)
  | runEv (script : GoStr)
  | hostCopyEv (src dst : GoStr)
  | hostRemoveEv (p : GoStr)
deriving DecidableEq, Repr

/-- Whether an event is an in-container command execution
(`Container.RunCommandStatus`). -/
def isRunEvent : BuildEvent → Bool
  | .runEv _ => true
  | _ => false

/-- Oracle for every external collaborator the builder calls.  `parentName`,
`cloneAndStart` and `loadManifest` stand for repository functions that live
outside spec.go (`ParentName`, `CloneAndStartContainer`, `Manifest.Load`);
they are modelled from the spec: FROM "resolves the base reference, requests
a new container be cloned from it and started", then "attempts to load prior
manifest state associated with the base image" (a successful load replacing
the manifest under construction, a failed one being tolerated).  The
remaining fields model the LXC driver, the host filesystem and YAML
marshalling, all of which the spec lists as external collaborators. -/
structure Driver where
  parentName : GoStr → GoStr
  cloneAndStart : GoStr → GoStr → GoStr → Except GoStr Nat
  loadManifest : GoStr → Except GoStr Manifest
  configRootfs : Nat → GoStr
  writeFile : GoStr → GoStr → Option GoStr
  runCommandStatus : Nat → GoStr → Except GoStr Int
  absPath : GoStr → Except GoStr GoStr
  hostCopy : GoStr → GoStr → Option GoStr
  hostRemove : GoStr → Option GoStr
  marshalManifest : Manifest → Except GoStr GoStr

/-! ### Command execution harness (`Spec.RunCommand`, spec.go lines 283-321) -/

/-- The shell script body built into the buffer by `RunCommand`: shebang,
one `export` line per live environment entry, a `cd` line when a working
directory is set, a `su -` line when a user is set, then the space-joined
command tokens. -/
def scriptBody (st : BuilderState) (command : List GoStr) : GoStr :=
  gs "#!/bin/bash\n"
  ++ (st.env.map (fun v => gs "export " ++ v ++ gs "\n")).flatten
  ++ (if st.cwd ≠ [] then gs "cd " ++ st.cwd ++ gs "\n" else [])
  ++ (if st.manifest.user ≠ [] then gs "su - " ++ st.manifest.user ++ gs "\n" else [])
  ++ joinSpace command

/-- The error built by `RunCommand` for a non-zero exit code. -/
def exitCodeMsg (command : List GoStr) (code : Int) : GoStr :=
  gs "Failed to execute command: " ++ joinSpace command
    ++ gs ". Exit code: " ++ (toString code).data

/-- Models `Spec.RunCommand`: reads the container rootfs (a nil handle
panics), writes the synthesized script into the container's `/tmp`, runs it
through the driver, and classifies the outcome (driver error and non-zero
exit are both errors). -/
def runCommand (d : Driver) (st : BuilderState) (command : List GoStr) :
    Res Unit × List BuildEvent :=
  match st.container with
  | none => (.crash, [])
  | some h =>
    let rootfs := d.configRootfs h
    let body := scriptBody st command
    let path := joinPath rootfs (gs "/tmp/dockerfile.sh")
    match d.writeFile path body with
    | some e => (.err e, [.writeFileEv path body])
    | none =>
      match d.runCommandStatus h body with
      | .error e => (.err e, [.writeFileEv path body, .runEv body])
      | .ok code =>
        if code = 0 then (.ok (), [.writeFileEv path body, .runEv body])
        else (.err (exitCodeMsg command code), [.writeFileEv path body, .runEv body])

/-! ### File staging (`Spec.addFiles`, spec.go lines 245-271) -/

/-- Models `Spec.addFiles`: reads the container rootfs (a nil handle
panics — spec.go line 246), resolves the source to an absolute host path,
copies it into the container's `/tmp` staging area, relocates it with an
in-container `cp`, then removes the staging copy. -/
def addFiles (d : Driver) (st : BuilderState) (src dest : GoStr) :
    Res Unit × List BuildEvent :=
  match st.container with
  | none => (.crash, [])
  | some h =>
    let rootfs := d.configRootfs h
    match d.absPath src with
    | .error e => (.err e, [])
    | .ok abs =>
      let base := baseName abs
      let tmpContainer := joinPath (joinPath rootfs (gs "tmp")) base
      match d.hostCopy abs tmpContainer with
      | some e => (.err e, [.hostCopyEv abs tmpContainer])
      | none =>
        let rc := runCommand d st [gs "cp", gs "-r", joinPath (gs "/tmp") base, dest]
        match rc.1 with
        | .err e => (.err e, .hostCopyEv abs tmpContainer :: rc.2)
        | .crash => (.crash, .hostCopyEv abs tmpContainer :: rc.2)
        | .ok _ =>
          match d.hostRemove tmpContainer with
          | some e =>
            (.err e, .hostCopyEv abs tmpContainer :: rc.2 ++ [.hostRemoveEv tmpContainer])
          | none =>
            (.ok (), .hostCopyEv abs tmpContainer :: rc.2 ++ [.hostRemoveEv tmpContainer])

/-! ### Artifact extraction and manifest writing (spec.go lines 226-281) -/

/-- The label loop of `fetchArtifact`: for every label whose key carries the
`nut_artifact_` marker, copy the labelled path into the container's `/tmp`
(fatal on failure) and then copy it out to the host (failure logged and
tolerated). -/
def fetchArtifactLoop (d : Driver) (st : BuilderState) (rootfs : GoStr) :
    List (GoStr × GoStr) → Res Unit × List BuildEvent
  | [] => (.ok (), [])
  | (k, v) :: rest =>
    if strStarts k (gs "nut_artifact_") then
      let artifact := baseName v
      let rc := runCommand d st [gs "cp", gs "-r", v, joinPath (gs "/tmp") artifact]
      match rc.1 with
      | .err e => (.err e, rc.2)
      | .crash => (.crash, rc.2)
      | .ok _ =>
        let pathInContainer := joinPath (joinPath rootfs (gs "tmp")) artifact
        let r2 := fetchArtifactLoop d st rootfs rest
        (r2.1, rc.2 ++ .hostCopyEv pathInContainer artifact :: r2.2)
    else fetchArtifactLoop d st rootfs rest

/-- Models `Spec.fetchArtifact` (a nil container handle panics at the rootfs
lookup, spec.go line 227). -/
def fetchArtifact (d : Driver) (st : BuilderState) : Res Unit × List BuildEvent :=
  match st.container with
  | none => (.crash, [])
  | some h => fetchArtifactLoop d st (d.configRootfs h) st.manifest.labels

/-- Models `Spec.writeManifest`: marshal the manifest and write it next to
the container's root filesystem (a nil handle panics at the rootfs lookup). -/
def writeManifestFile (d : Driver) (st : BuilderState) : Res Unit × List BuildEvent :=
  match st.container with
  | none => (.crash, [])
  | some h =>
    match d.marshalManifest st.manifest with
    | .error e => (.err e, [])
    | .ok bytes =>
      let path := joinPath (d.configRootfs h) (gs "../manifest.yml")
      match d.writeFile path bytes with
      | some e => (.err e, [.writeFileEv path bytes])
      | none => (.ok (), [.writeFileEv path bytes])


/-! ### Directive interpreter (`Spec.Build`, spec.go lines 114-224) -/

/-- The directive keywords of the Go `switch words[0]` dispatch. -/
inductive Directive where
  | fromD | runD | envD | workdirD | addD | copyD | labelD | exposeD
  | maintainerD | userD | volumeD | stopsignalD | cmdD | entrypointD | unknownD
deriving DecidableEq, Repr

/-- The `switch` on the statement's first token. -/
def decodeDirective (w : GoStr) : Directive :=
  if w = gs "FROM" then .fromD
  else if w = gs "RUN" then .runD
  else if w = gs "ENV" then .envD
  else if w = gs "WORKDIR" then .workdirD
  else if w = gs "ADD" then .addD
  else if w = gs "COPY" then .copyD
  else if w = gs "LABEL" then .labelD
  else if w = gs "EXPOSE" then .exposeD
  else if w = gs "MAINTAINER" then .maintainerD
  else if w = gs "USER" then .userD
  else if w = gs "VOLUME" then .volumeD
  else if w = gs "STOPSIGNAL" then .stopsignalD
  else if w = gs "CMD" then .cmdD
  else if w = gs "ENTRYPOINT" then .entrypointD
  else .unknownD

/-- Error returned when a second FROM finds the container already built. -/
def multiFromMsg : GoStr :=
  gs "Container already built. Multiple FROM declaration?"

/-- Error returned when RUN finds no container. -/
def noContainerMsg : GoStr :=
  gs "No container has been created yet. Use FROM directive"

/-- Fatal message for a LABEL argument without a `=` (the Go code issues it
via `log.Fatalf`, which terminates the build). -/
def labelMsg : GoStr :=
  gs "Invalid LABEL instruction. LABELS must have = in them"

/-- Error returned when CMD or ENTRYPOINT finds the entry point already
set. -/
def entryPointMsg : GoStr :=
  gs "Entrypoint/CMD is already defined. Probably multiple declaration"

/-- The FROM clone loop: `for _, volume := range volumes`, cloning once per
volume and overwriting the handle each time; the first clone failure aborts. -/
def cloneLoop (d : Driver) (name id : GoStr) :
    List GoStr → Option Nat → Res (Option Nat) × List BuildEvent
  | [], h => (.ok h, [])
  | v :: vs, _ =>
    match d.cloneAndStart name id v with
    | .error e => (.err e, [.cloneEv name v])
    | .ok hdl =>
      let r := cloneLoop d name id vs (some hdl)
      (r.1, .cloneEv name v :: r.2)

/-- The ENV argument loop (spec.go lines 155-164): a `KEY=VALUE` argument is
appended verbatim to the live environment and the manifest environment; a
bare `KEY` consumes the following token as its value (accessing `words[i+1]`
past the end of the slice panics). -/
def envLoop : List GoStr → List GoStr → List GoStr → Res (List GoStr × List GoStr)
  | env, menv, [] => .ok (env, menv)
  | env, menv, w :: rest =>
    if '=' ∈ w then envLoop (env ++ [w]) (menv ++ [w]) rest
    else
      match rest with
      | [] => .crash
      | v :: rest2 => envLoop (env ++ [w ++ '=' :: v]) (menv ++ [w ++ '=' :: v]) rest2

/-- The entries a well-formed ENV argument list contributes (`none` when the
list ends in a bare key with no value token). -/
def envEntries : List GoStr → Option (List GoStr)
  | [] => some []
  | w :: rest =>
    if '=' ∈ w then (envEntries rest).map (fun l => w :: l)
    else
      match rest with
      | [] => none
      | v :: rest2 => (envEntries rest2).map (fun l => (w ++ '=' :: v) :: l)

/-- The LABEL argument loop (spec.go lines 177-185): each argument is split
on `=`; `pair[0]` becomes the key and `pair[1]` (the segment between the
first and second `=`) the value; an argument without `=` is fatal. -/
def labelLoop : List (GoStr × GoStr) → List GoStr → Res (List (GoStr × GoStr))
  | labels, [] => .ok labels
  | labels, w :: rest =>
    if '=' ∈ w then
      let pair := splitOnChar '=' w
      labelLoop (setLabel labels (pair.getD 0 []) (pair.getD 1 [])) rest
    else .err labelMsg

/-- The EXPOSE argument loop (spec.go lines 187-193): every argument's
`ParseUint` result value is appended, parse failure or not. -/
def exposeLoop (ports : List Nat) : List GoStr → List Nat
  | [] => ports
  | p :: rest => exposeLoop (ports ++ [(goParseUint64 p).1]) rest

/-- One iteration of the statement loop of `Spec.Build`: split the statement
into fields (`words[0]` on an all-whitespace statement panics) and dispatch
on the leading keyword.  An unknown keyword is a no-op (the constructed
error is discarded). -/
def execStatement (d : Driver) (id : GoStr) (volumes : List GoStr)
    (st : BuilderState) (statement : GoStr) : Res BuilderState × List BuildEvent :=
  match fields statement with
  | [] => (.crash, [])
  | w0 :: args =>
    match decodeDirective w0 with
    | .fromD =>
      match st.container with
      | some _ => (.err multiFromMsg, [])
      | none =>
        match args with
        | [] => (.crash, [])
        | a1 :: _ =>
          let name := d.parentName a1
          let rc := cloneLoop d name id volumes st.container
          match rc.1 with
          | .err e => (.err e, rc.2)
          | .crash => (.crash, rc.2)
          | .ok h =>
            let st1 := { st with container := h }
            let st2 :=
              match d.loadManifest name with
              | .ok m => { st1 with manifest := m }
              | .error _ => st1
            (.ok st2, rc.2 ++ [.loadEv name])
    | .runD =>
      match st.container with
      | none => (.err noContainerMsg, [])
      | some _ =>
        let rc := runCommand d st args
        match rc.1 with
        | .ok _ => (.ok st, rc.2)
        | .err e => (.err e, rc.2)
        | .crash => (.crash, rc.2)
    | .envD =>
      match envLoop st.env st.manifest.env args with
      | .ok (e, me) =>
        (.ok { st with env := e, manifest := { st.manifest with env := me } }, [])
      | .err e => (.err e, [])
      | .crash => (.crash, [])
    | .workdirD =>
      match args with
      | [] => (.crash, [])
      | a :: _ =>
        (.ok { st with cwd := a, manifest := { st.manifest with workDir := a } }, [])
    | .addD =>
      match args with
      | a :: b :: _ =>
        let rc := addFiles d st a b
        match rc.1 with
        | .ok _ => (.ok st, rc.2)
        | .err e => (.err e, rc.2)
        | .crash => (.crash, rc.2)
      | _ => (.crash, [])
    | .copyD =>
      match args with
      | a :: b :: _ =>
        let rc := addFiles d st a b
        match rc.1 with
        | .ok _ => (.ok st, rc.2)
        | .err e => (.err e, rc.2)
        | .crash => (.crash, rc.2)
      | _ => (.crash, [])
    | .labelD =>
      match labelLoop st.manifest.labels args with
      | .ok ls => (.ok { st with manifest := { st.manifest with labels := ls } }, [])
      | .err e => (.err e, [])
      | .crash => (.crash, [])
    | .exposeD =>
      (.ok { st with manifest :=
        { st.manifest with exposedPorts := exposeLoop st.manifest.exposedPorts args } }, [])
    | .maintainerD =>
      (.ok { st with manifest :=
        { st.manifest with maintainers := st.manifest.maintainers ++ [joinSpace args] } }, [])
    | .userD =>
      match args with
      | [] => (.crash, [])
      | a :: _ => (.ok { st with manifest := { st.manifest with user := a } }, [])
    | .volumeD => (.ok st, [])
    | .stopsignalD => (.ok st, [])
    | .cmdD =>
      if st.manifest.entryPoint = [] then
        (.ok { st with manifest := { st.manifest with entryPoint := args } }, [])
      else (.err entryPointMsg, [])
    | .entrypointD =>
      if st.manifest.entryPoint = [] then
        (.ok { st with manifest := { st.manifest with entryPoint := args } }, [])
      else (.err entryPointMsg, [])
    | .unknownD => (.ok st, [])

/-- The statement loop of `Spec.Build`: statements run strictly in order and
the first error or panic aborts. -/
def buildLoop (d : Driver) (id : GoStr) (volumes : List GoStr) :
    BuilderState → List GoStr → Res BuilderState × List BuildEvent
  | st, [] => (.ok st, [])
  | st, s :: rest =>
    match execStatement d id volumes st s with
    | (.ok st2, tr) =>
      let r := buildLoop d id volumes st2 rest
      (r.1, tr ++ r.2)
    | (.err e, tr) => (.err e, tr)
    | (.crash, tr) => (.crash, tr)

/-- Models `Spec.Build`: reset the build state, replay every statement, then
extract artifacts and write the manifest. -/
def build (d : Driver) (id : GoStr) (volumes : List GoStr)
    (statements : List GoStr) : Res Unit × List BuildEvent :=
  match buildLoop d id volumes initState statements with
  | (.err e, tr) => (.err e, tr)
  | (.crash, tr) => (.crash, tr)
  | (.ok st, tr) =>
    match fetchArtifact d st with
    | (.err e, tr2) => (.err e, tr ++ tr2)
    | (.crash, tr2) => (.crash, tr ++ tr2)
    | (.ok _, tr2) =>
      let r := writeManifestFile d st
      (r.1, tr ++ tr2 ++ r.2)

/-- A driver on which every external operation succeeds: clones yield handle
0, the base image carries no manifest, every command exits 0, every file
operation succeeds. -/
def okDriver : Driver :=
  { parentName := fun n => n
    cloneAndStart := fun _ _ _ => .ok 0
    loadManifest := fun _ => .error (gs "no manifest in parent")
    configRootfs := fun _ => gs "/var/lib/lxc/c/rootfs"
    writeFile := fun _ _ => none
    runCommandStatus := fun _ _ => .ok 0
    absPath := fun s => .ok s
    hostCopy := fun _ _ => none
    hostRemove := fun _ => none
    marshalManifest := fun _ => .ok (gs "yaml-bytes") }

/-- Variant of `okDriver` with a failing script-file write, used to exercise the write
error path of `RunCommand`. -/
def failWriteDriver : Driver :=
  { okDriver with writeFile := fun _ _ => some (gs "disk full") }

/-- Transport of a statement outcome to another container handle: the result
a container-oblivious directive would produce if the build state carried
handle `c` instead.  Used to state that a directive never consults the
handle. -/
def withContainer (c : Option Nat) :
    Res BuilderState × List BuildEvent → Res BuilderState × List BuildEvent
  | (.ok st, tr) => (.ok { st with container := c }, tr)
  | r => r

/-! ### Parser lemmas -/

/-- One parser step only ever appends to the statement list: its effect on the
statements is independent of the statements accumulated so far. -/
lemma parseStep_decomp (stmts : List GoStr) (prev line : GoStr) :
    parseStep (stmts, prev) line =
      (stmts ++ (parseStep ([], prev) line).1, (parseStep ([], prev) line).2) := by
  simp only [parseStep]
  split_ifs <;> simp

/-- Unfolding one line of the scanner loop. -/
lemma parseLinesFrom_cons (stmts : List GoStr) (prev l : GoStr) (ls : List GoStr) :
    parseLinesFrom stmts prev (l :: ls) =
      parseLinesFrom (parseStep (stmts, prev) l).1 (parseStep (stmts, prev) l).2 ls := by
  simp [parseLinesFrom]

/-- The scanner loop appends to the statements accumulated so far; the
appended suffix and the final pending statement depend only on the input
lines and the initial pending statement. -/
lemma parseLinesFrom_decomp (lines : List GoStr) :
    ∀ (stmts : List GoStr) (prev : GoStr),
      parseLinesFrom stmts prev lines =
        (stmts ++ (parseLinesFrom [] prev lines).1, (parseLinesFrom [] prev lines).2) := by
  induction lines with
  | nil => intro stmts prev; simp [parseLinesFrom]
  | cons l ls ih =>
    intro stmts prev
    rw [parseLinesFrom_cons, parseLinesFrom_cons [] prev l ls]
    rw [parseStep_decomp]
    rw [ih, ih (parseStep ([], prev) l).1 (parseStep ([], prev) l).2]
    simp

/-- Parsing appends exactly `parseLines lines` to the receiver's
statements. -/
lemma parseInto_statements (sp : BuildSpec) (lines : List GoStr) :
    (parseInto sp lines).statements = sp.statements ++ parseLines lines := by
  show (parseLinesFrom sp.statements [] lines).1 = sp.statements ++ parseLines lines
  rw [parseLinesFrom_decomp lines sp.statements []]
  rfl

/-- The token accumulator of `fields` yields at least one token whenever the
input still holds a non-whitespace character or a token is in progress. -/
lemma fieldsAux_ne_nil (l : GoStr) :
    ∀ cur : GoStr, (l.any (fun c => !c.isWhitespace) = true ∨ cur ≠ []) →
      fieldsAux l cur ≠ [] := by
  induction l with
  | nil =>
    intro cur h
    rcases h with h | h
    · simp at h
    · simp [fieldsAux, h]
  | cons c rest ih =>
    intro cur h
    simp only [fieldsAux]
    split_ifs with hw hc
    · apply ih []
      left
      rcases h with h | h
      · simp only [List.any_cons, Bool.or_eq_true] at h
        rcases h with h | h
        · rw [hw] at h
          simp at h
        · exact h
      · exact absurd hc h
    · simp
    · apply ih (c :: cur)
      right
      simp

/-- A statement produced in the completion branch of the parser contains a
non-whitespace character, hence splits into at least one field. -/
lemma fields_ne_nil_of_any (s : GoStr) (h : s.any (fun c => !c.isWhitespace) = true) :
    fields s ≠ [] :=
  fieldsAux_ne_nil s [] (Or.inl h)

/-- A non-blank line contains a non-whitespace character. -/
lemma any_not_space_of_not_blank (l : GoStr) (h : lineIsBlank l = false) :
    l.any (fun c => !c.isWhitespace) = true := by
  simp only [lineIsBlank] at h
  rw [List.all_eq_not_any_not] at h
  simpa using h

/-- A line of the comment, continuation or blank kind leaves the statement
list untouched. -/
lemma parseStep_keeps (stmts : List GoStr) (prev line : GoStr)
    (h : lineIsComment line = true ∨ lineEndsBackslash line = true ∨
      lineIsBlank line = true) :
    (parseStep (stmts, prev) line).1 = stmts := by
  simp only [parseStep]
  rcases h with h | h | h
  · rw [if_pos h]
  · by_cases hcm : lineIsComment line
    · rw [if_pos hcm]
    · rw [if_neg hcm, if_pos h]
      split_ifs <;> rfl
  · by_cases hcm : lineIsComment line
    · rw [if_pos hcm]
    · rw [if_neg hcm]
      by_cases hcn : lineEndsBackslash line
      · rw [if_pos hcn]
        split_ifs <;> rfl
      · rw [if_neg hcn, if_pos h]

/-- On a completing line, the statement list grows by exactly the joined
pending statement (or the bare line). -/
lemma parseStep_emits (stmts : List GoStr) (prev line : GoStr)
    (h1 : lineIsComment line = false) (h2 : lineEndsBackslash line = false)
    (h3 : lineIsBlank line = false) :
    parseStep (stmts, prev) line =
      (stmts ++ [if prev ≠ [] then prev ++ ' ' :: line else line], []) := by
  simp only [parseStep]
  rw [if_neg (by simp [h1]), if_neg (by simp [h2]), if_neg (by simp [h3])]
  split_ifs with hp <;> rfl

/-- One parser step preserves the invariant that every accumulated statement
splits into a non-empty field list. -/
lemma parseStep_fields_ne (stmts : List GoStr) (prev l : GoStr)
    (h : ∀ s ∈ stmts, fields s ≠ []) :
    ∀ s ∈ (parseStep (stmts, prev) l).1, fields s ≠ [] := by
  by_cases h1 : lineIsComment l
  · rw [parseStep_keeps stmts prev l (Or.inl h1)]
    exact h
  · by_cases h2 : lineEndsBackslash l
    · rw [parseStep_keeps stmts prev l (Or.inr (Or.inl h2))]
      exact h
    · by_cases h3 : lineIsBlank l
      · rw [parseStep_keeps stmts prev l (Or.inr (Or.inr h3))]
        exact h
      · rw [parseStep_emits stmts prev l (by simpa using h1) (by simpa using h2)
          (by simpa using h3)]
        intro s hs
        rcases List.mem_append.1 hs with hs | hs
        · exact h s hs
        · rcases List.mem_singleton.1 hs with rfl
          have hl := any_not_space_of_not_blank l (by simpa using h3)
          apply fields_ne_nil_of_any
          split_ifs with hp
          · simp [List.any_append, hl]
          · exact hl

/-- The whole scanner loop preserves the non-empty-fields invariant. -/
lemma parseLinesFrom_fields_ne (lines : List GoStr) :
    ∀ (stmts : List GoStr) (prev : GoStr), (∀ s ∈ stmts, fields s ≠ []) →
      ∀ s ∈ (parseLinesFrom stmts prev lines).1, fields s ≠ [] := by
  induction lines with
  | nil => intro stmts prev h; exact h
  | cons l ls ih =>
    intro stmts prev h
    rw [parseLinesFrom_cons]
    exact ih (parseStep (stmts, prev) l).1 (parseStep (stmts, prev) l).2
      (parseStep_fields_ne stmts prev l h)

/-! ### Claim theorems: parser -/

/-- C7: a comment line (beginning with `#`) read while a backslash
continuation is pending is discarded without terminating or modifying the
pending accumulator (first conjunct, which covers arbitrary accumulator
contents); a statement is emitted only on a line that is neither a comment,
nor a continuation line, nor blank (second conjunct); and on such a line the
pending accumulator is flushed, space-joined with the line (third
conjunct). -/
theorem C7_comment_mid_continuation :
    (∀ (stmts : List GoStr) (prev line : GoStr), lineIsComment line = true →
        parseStep (stmts, prev) line = (stmts, prev)) ∧
    (∀ (stmts : List GoStr) (prev line : GoStr),
        (parseStep (stmts, prev) line).1 ≠ stmts →
        lineIsComment line = false ∧ lineEndsBackslash line = false ∧
          lineIsBlank line = false) ∧
    (∀ (stmts : List GoStr) (prev line : GoStr), lineIsComment line = false →
        lineEndsBackslash line = false → lineIsBlank line = false → prev ≠ [] →
        parseStep (stmts, prev) line = (stmts ++ [prev ++ ' ' :: line], [])) := by
  refine ⟨fun stmts prev line h => by simp [parseStep, h], ?_, ?_⟩
  · intro stmts prev line h
    refine ⟨?_, ?_, ?_⟩
    · cases hv : lineIsComment line
      · rfl
      · exact absurd (parseStep_keeps stmts prev line (Or.inl hv)) h
    · cases hv : lineEndsBackslash line
      · rfl
      · exact absurd (parseStep_keeps stmts prev line (Or.inr (Or.inl hv))) h
    · cases hv : lineIsBlank line
      · rfl
      · exact absurd (parseStep_keeps stmts prev line (Or.inr (Or.inr hv))) h
  · intro stmts prev line h1 h2 h3 hp
    rw [parseStep_emits stmts prev line h1 h2 h3, if_pos hp]

/-- C7 witness: a comment line arriving while the statement `RUN a` is being
continued is dropped and the accumulator survives untouched. -/
theorem C7_witness : parseStep ([], gs "RUN a") (gs "# note") = ([], gs "RUN a") :=
  C7_comment_mid_continuation.1 [] (gs "RUN a") (gs "# note") (by decide)

/-- C9: re-parsing the same script text appends an identical statement
sequence: the statements contributed by the second `Parse` call over the same
lines coincide with those contributed by the first, whatever `Spec` each call
starts from (both equal `parseLines lines`). -/
theorem C9_parse_idempotent (sp : BuildSpec) (lines : List GoStr) :
    (parseInto (parseInto sp lines) lines).statements.drop
        (parseInto sp lines).statements.length
      = (parseInto sp lines).statements.drop sp.statements.length := by
  rw [parseInto_statements (parseInto sp lines) lines, parseInto_statements sp lines,
    List.drop_left, List.drop_left]

/-- C10: every statement the parser emits splits into a non-empty token
list, so the interpreter's dispatch on `words[0]` never indexes an empty
slice. -/
theorem C10_statements_nonempty_fields (lines : List GoStr) (s : GoStr)
    (h : s ∈ parseLines lines) : fields s ≠ [] :=
  parseLinesFrom_fields_ne lines [] [] (by simp) s h

/-- C10 witness at a concrete script. -/
theorem C10_witness : fields (gs "FROM a") ≠ [] :=
  C10_statements_nonempty_fields [gs "FROM a"] (gs "FROM a") (by decide)

/-! ### Interpreter lemmas -/

lemma decode_FROM : decodeDirective (gs "FROM") = .fromD := by decide

lemma decode_RUN : decodeDirective (gs "RUN") = .runD := by decide

lemma decode_ENV : decodeDirective (gs "ENV") = .envD := by decide

lemma decode_ADD : decodeDirective (gs "ADD") = .addD := by decide

lemma decode_COPY : decodeDirective (gs "COPY") = .copyD := by decide

lemma decode_LABEL : decodeDirective (gs "LABEL") = .labelD := by decide

lemma decode_EXPOSE : decodeDirective (gs "EXPOSE") = .exposeD := by decide

lemma decode_CMD : decodeDirective (gs "CMD") = .cmdD := by decide

lemma decode_ENTRYPOINT : decodeDirective (gs "ENTRYPOINT") = .entrypointD := by decide

/-- The EXPOSE loop appends exactly the `ParseUint` result value of each
argument, in order. -/
lemma exposeLoop_eq_map (args : List GoStr) :
    ∀ ports : List Nat,
      exposeLoop ports args = ports ++ args.map (fun p => (goParseUint64 p).1) := by
  induction args with
  | nil => intro ports; simp [exposeLoop]
  | cons p rest ih => intro ports; simp [exposeLoop, ih]

/-- A string without the separator character does not split. -/
lemma splitOnChar_eq_self (sep : Char) (w : GoStr) (h : sep ∉ w) :
    splitOnChar sep w = [w] := by
  induction w with
  | nil => rfl
  | cons c rest ih =>
    simp only [List.mem_cons, not_or] at h
    simp only [splitOnChar, ih h.2]
    rw [if_neg (fun hc => h.1 hc.symm)]

/-- The LABEL loop on arguments that all contain `=` succeeds, and a
one-argument LABEL stores `pair[0] ↦ pair[1]` of the `=`-split. -/
lemma labelLoop_single (labels : List (GoStr × GoStr)) (w k v : GoStr) (r2 : List GoStr)
    (hsplit : splitOnChar '=' w = k :: v :: r2) :
    labelLoop labels [w] = .ok (setLabel labels k v) := by
  have hw : '=' ∈ w := by
    by_contra hmem
    rw [splitOnChar_eq_self '=' w hmem] at hsplit
    simp at hsplit
  simp [labelLoop, hw, hsplit]

/-- The LABEL loop aborts with the fatal message as soon as any argument
lacks a `=`. -/
lemma labelLoop_err (args : List GoStr) :
    ∀ labels : List (GoStr × GoStr), (∃ a ∈ args, '=' ∉ a) →
      labelLoop labels args = .err labelMsg := by
  induction args with
  | nil => intro labels h; simp at h
  | cons w rest ih =>
    intro labels h
    by_cases hw : '=' ∈ w
    · have hrest : ∃ a ∈ rest, '=' ∉ a := by
        rcases h with ⟨a, ha, hna⟩
        rcases List.mem_cons.1 ha with rfl | ha
        · exact absurd hw hna
        · exact ⟨a, ha, hna⟩
      simp only [labelLoop]
      rw [if_pos hw]
      exact ih _ hrest
    · simp only [labelLoop]
      rw [if_neg hw]

/-- The ENV loop on a well-formed argument list appends its entries, in
order, identically to the live environment and to the manifest
environment. -/
lemma envEntries_cons (w : GoStr) (rest : List GoStr) :
    envEntries (w :: rest) =
      if '=' ∈ w then (envEntries rest).map (fun l => w :: l)
      else
        match rest with
        | [] => none
        | v :: rest2 => (envEntries rest2).map (fun l => (w ++ '=' :: v) :: l) := by
  rw [envEntries.eq_def]

lemma envLoop_cons (env menv : List GoStr) (w : GoStr) (rest : List GoStr) :
    envLoop env menv (w :: rest) =
      if '=' ∈ w then envLoop (env ++ [w]) (menv ++ [w]) rest
      else
        match rest with
        | [] => .crash
        | v :: rest2 =>
          envLoop (env ++ [w ++ '=' :: v]) (menv ++ [w ++ '=' :: v]) rest2 := by
  rw [envLoop.eq_def]

lemma envLoop_append :
    ∀ (args env menv es : List GoStr), envEntries args = some es →
      envLoop env menv args = .ok (env ++ es, menv ++ es)
  | [], env, menv, es, h => by
    have h2 : some ([] : List GoStr) = some es := h
    cases h2
    simp [envLoop]
  | w :: rest, env, menv, es, h => by
    rw [envEntries_cons] at h
    rw [envLoop_cons]
    by_cases hw : '=' ∈ w
    · rw [if_pos hw] at h
      rw [if_pos hw]
      rcases Option.map_eq_some'.1 h with ⟨l, hl, rfl⟩
      rw [envLoop_append rest (env ++ [w]) (menv ++ [w]) l hl]
      simp
    · rw [if_neg hw] at h
      rw [if_neg hw]
      cases rest with
      | nil => exact Option.noConfusion h
      | cons v rest2 =>
        rcases Option.map_eq_some'.1 h with ⟨l, hl, rfl⟩
        show envLoop (env ++ [w ++ '=' :: v]) (menv ++ [w ++ '=' :: v]) rest2 =
          Res.ok (env ++ (w ++ '=' :: v) :: l, menv ++ (w ++ '=' :: v) :: l)
        rw [envLoop_append rest2 (env ++ [w ++ '=' :: v]) (menv ++ [w ++ '=' :: v]) l hl]
        simp

/-- General form of the ENV directive's effect, used by the C6 theorem. -/
lemma execStatement_env (d : Driver) (id : GoStr) (vols : List GoStr)
    (st : BuilderState) (s : GoStr) (args es : List GoStr)
    (hf : fields s = gs "ENV" :: args) (he : envEntries args = some es) :
    execStatement d id vols st s =
      (.ok { st with
             env := st.env ++ es
             manifest := { st.manifest with env := st.manifest.env ++ es } }, []) := by
  simp [execStatement, hf, decode_ENV, envLoop_append args st.env st.manifest.env es he]

/-! ### Claim theorems: directive semantics -/

/-- C2 counterexample: the LABEL handler does not keep the remainder after
the first `=` as the value: `LABEL a=b=c` stores `labels["a"] = "b"` (the
segment between the first and second `=`), not `"b=c"` as the claim
states. -/
theorem C2_counterexample :
    (execStatement okDriver (gs "t") [] initState (gs "LABEL a=b=c")).1 =
      Res.ok { initState with
               manifest := { emptyManifest with labels := [(gs "a", gs "b")] } } ∧
    gs "b" ≠ gs "b=c" := by decide

/-- C2 (amended): a LABEL argument containing `=` is split on every `=`;
the key is the segment before the first `=` and the stored value is the
segment between the first and the second `=` (`pair[1]` of the split), so
`a=b=c` yields `labels["a"] = "b"`; any argument without `=` still aborts
the build with the fatal invalid-LABEL error (second conjunct). -/
theorem C2_label_split_semantics :
    (∀ (d : Driver) (id : GoStr) (vols : List GoStr) (st : BuilderState)
        (s w k v : GoStr) (r2 : List GoStr), fields s = [gs "LABEL", w] →
        splitOnChar '=' w = k :: v :: r2 →
        execStatement d id vols st s =
          (.ok { st with
                 manifest := { st.manifest with
                               labels := setLabel st.manifest.labels k v } }, [])) ∧
    (∀ (d : Driver) (id : GoStr) (vols : List GoStr) (st : BuilderState)
        (s : GoStr) (args : List GoStr), fields s = gs "LABEL" :: args →
        (∃ a ∈ args, '=' ∉ a) →
        execStatement d id vols st s = (.err labelMsg, [])) := by
  constructor
  · intro d id vols st s w k v r2 hf hsplit
    simp [execStatement, hf, decode_LABEL, labelLoop_single st.manifest.labels w k v r2 hsplit]
  · intro d id vols st s args hf hbad
    simp [execStatement, hf, decode_LABEL, labelLoop_err args st.manifest.labels hbad]

/-- C2 witness: `LABEL a=b=c` on the fresh state stores `a ↦ b`. -/
theorem C2_witness :
    execStatement okDriver (gs "t") [] initState (gs "LABEL a=b=c") =
      (.ok { initState with
             manifest := { initState.manifest with
                           labels := setLabel initState.manifest.labels (gs "a") (gs "b") } },
       []) :=
  C2_label_split_semantics.1 okDriver (gs "t") [] initState (gs "LABEL a=b=c")
    (gs "a=b=c") (gs "a") (gs "b") [gs "c"] (by decide) (by decide)

/-- C3 counterexample: `EXPOSE 80 not-a-number 443` leaves exposedPorts
`[80, 0, 443]`, not `{80, 443}`: the unparsable argument contributes the
zero value `ParseUint` returns on a syntax error (second conjunct), so the
manifest does not contain "exactly the successfully parsed ports". -/
theorem C3_counterexample :
    (execStatement okDriver (gs "t") [] initState (gs "EXPOSE 80 not-a-number 443")).1 =
      Res.ok { initState with
               manifest := { emptyManifest with exposedPorts := [80, 0, 443] } } ∧
    goParseUint64 (gs "not-a-number") = (0, false) := by decide

/-- C3 (amended): an EXPOSE directive never aborts the build; every
argument appends the value component of its `ParseUint` result to
exposedPorts — the parsed port on success and the error-value (0 for a
syntax error) on failure — so `EXPOSE 80 not-a-number 443` yields
`[80, 0, 443]`. -/
theorem C3_expose_appends_parsed_values (d : Driver) (id : GoStr) (vols : List GoStr)
    (st : BuilderState) (s : GoStr) (args : List GoStr)
    (hf : fields s = gs "EXPOSE" :: args) :
    execStatement d id vols st s =
      (.ok { st with
             manifest := { st.manifest with
                           exposedPorts := st.manifest.exposedPorts
                             ++ args.map (fun p => (goParseUint64 p).1) } }, []) := by
  simp [execStatement, hf, decode_EXPOSE, exposeLoop_eq_map args st.manifest.exposedPorts]

/-- C3 witness at the spec's own example statement. -/
theorem C3_witness :
    execStatement okDriver (gs "t") [] initState (gs "EXPOSE 80 not-a-number 443") =
      (.ok { initState with
             manifest := { initState.manifest with
                           exposedPorts := initState.manifest.exposedPorts
                             ++ [gs "80", gs "not-a-number", gs "443"].map
                                 (fun p => (goParseUint64 p).1) } }, []) :=
  C3_expose_appends_parsed_values okDriver (gs "t") [] initState
    (gs "EXPOSE 80 not-a-number 443") [gs "80", gs "not-a-number", gs "443"] (by decide)

/-- C6: `ENV A=1 B 2` appends exactly the entries `A=1` and `B=2`, in that
order (first conjunct); and in general every well-formed ENV argument list —
each argument either `KEY=VALUE` or a bare `KEY` consuming the next token as
its value — appends the same entries, in the same order, to the live
environment list and to the manifest environment list (second conjunct). -/
theorem C6_env_appends_identically :
    (∀ (d : Driver) (id : GoStr) (vols : List GoStr) (st : BuilderState),
      execStatement d id vols st (gs "ENV A=1 B 2") =
        (.ok { st with
               env := st.env ++ [gs "A=1", gs "B=2"]
               manifest := { st.manifest with
                             env := st.manifest.env ++ [gs "A=1", gs "B=2"] } }, [])) ∧
    (∀ (d : Driver) (id : GoStr) (vols : List GoStr) (st : BuilderState)
        (s : GoStr) (args es : List GoStr), fields s = gs "ENV" :: args →
        envEntries args = some es →
        execStatement d id vols st s =
          (.ok { st with
                 env := st.env ++ es
                 manifest := { st.manifest with env := st.manifest.env ++ es } }, [])) := by
  refine ⟨fun d id vols st => ?_, fun d id vols st s args es hf he => ?_⟩
  · exact execStatement_env d id vols st (gs "ENV A=1 B 2")
      [gs "A=1", gs "B", gs "2"] [gs "A=1", gs "B=2"] (by decide) (by decide)
  · exact execStatement_env d id vols st s args es hf he

/-- C6 witness: the concrete example on the fresh build state. -/
theorem C6_witness :
    execStatement okDriver (gs "t") [] initState (gs "ENV A=1 B 2") =
      (.ok { initState with
             env := initState.env ++ [gs "A=1", gs "B=2"]
             manifest := { initState.manifest with
                           env := initState.manifest.env ++ [gs "A=1", gs "B=2"] } }, []) :=
  C6_env_appends_identically.1 okDriver (gs "t") [] initState

/-- Every directive other than FROM, RUN, ADD and COPY never consults the
container handle: executing it from a state carrying any handle value `c`
yields exactly the outcome of executing it from the original state, with
only the stored handle transported.  (FROM reads the handle for its
duplicate check, RUN for its precondition, ADD/COPY dereference it.) -/
lemma execStatement_container_oblivious (d : Driver) (id : GoStr) (vols : List GoStr)
    (st : BuilderState) (c : Option Nat) (s w0 : GoStr) (args : List GoStr)
    (hf : fields s = w0 :: args)
    (h1 : decodeDirective w0 ≠ .fromD) (h2 : decodeDirective w0 ≠ .runD)
    (h3 : decodeDirective w0 ≠ .addD) (h4 : decodeDirective w0 ≠ .copyD) :
    execStatement d id vols { st with container := c } s =
      withContainer c (execStatement d id vols st s) := by
  cases hdec : decodeDirective w0 with
  | fromD => exact absurd hdec h1
  | runD => exact absurd hdec h2
  | addD => exact absurd hdec h3
  | copyD => exact absurd hdec h4
  | envD =>
    cases he : envLoop st.env st.manifest.env args with
    | ok p =>
      obtain ⟨e, me⟩ := p
      simp [execStatement, hf, hdec, he, withContainer]
    | err e => simp [execStatement, hf, hdec, he, withContainer]
    | crash => simp [execStatement, hf, hdec, he, withContainer]
  | workdirD =>
    rcases args with _ | ⟨a, t⟩ <;> simp [execStatement, hf, hdec, withContainer]
  | labelD =>
    cases hl : labelLoop st.manifest.labels args <;>
      simp [execStatement, hf, hdec, hl, withContainer]
  | exposeD => simp [execStatement, hf, hdec, withContainer]
  | maintainerD => simp [execStatement, hf, hdec, withContainer]
  | userD =>
    rcases args with _ | ⟨a, t⟩ <;> simp [execStatement, hf, hdec, withContainer]
  | volumeD => simp [execStatement, hf, hdec, withContainer]
  | stopsignalD => simp [execStatement, hf, hdec, withContainer]
  | cmdD =>
    by_cases hep : st.manifest.entryPoint = [] <;>
      simp [execStatement, hf, hdec, hep, withContainer]
  | entrypointD =>
    by_cases hep : st.manifest.entryPoint = [] <;>
      simp [execStatement, hf, hdec, hep, withContainer]
  | unknownD => simp [execStatement, hf, hdec, withContainer]

/-- C1 counterexample: a non-FROM directive (`ENV A=1`) reached while the
container handle is absent does not make Build return a hard error — it
executes its action (the environment append) and succeeds. -/
theorem C1_counterexample :
    initState.container = none ∧
    (execStatement okDriver (gs "t") [] initState (gs "ENV A=1")).1 =
      Res.ok { initState with
               env := [gs "A=1"]
               manifest := { emptyManifest with env := [gs "A=1"] } } := by decide

/-- C1 (amended): only the RUN directive enforces the container-handle
precondition: RUN reached without a container returns the hard error without
invoking the command harness (empty event trace, first conjunct); ADD and
COPY reached without a container panic on the nil-handle dereference in
`addFiles` instead of returning an error (second and third conjuncts); and
every other directive — ENV, WORKDIR, LABEL, EXPOSE, MAINTAINER, USER,
VOLUME, STOPSIGNAL, CMD, ENTRYPOINT and unknown keywords — never consults
the handle: its outcome from a state carrying any handle value (absent
included) is the outcome from the original state with only the stored handle
transported, so its action executes with no container check (fourth
conjunct); in particular ENV reached without a container performs its append
and succeeds (fifth conjunct). -/
theorem C1_container_check_only_for_run :
    (∀ (d : Driver) (id : GoStr) (vols : List GoStr) (st : BuilderState)
        (s : GoStr) (args : List GoStr), st.container = none →
        fields s = gs "RUN" :: args →
        execStatement d id vols st s = (.err noContainerMsg, [])) ∧
    (∀ (d : Driver) (id : GoStr) (vols : List GoStr) (st : BuilderState)
        (s : GoStr) (args : List GoStr), st.container = none →
        fields s = gs "ADD" :: args →
        execStatement d id vols st s = (.crash, [])) ∧
    (∀ (d : Driver) (id : GoStr) (vols : List GoStr) (st : BuilderState)
        (s : GoStr) (args : List GoStr), st.container = none →
        fields s = gs "COPY" :: args →
        execStatement d id vols st s = (.crash, [])) ∧
    (∀ (d : Driver) (id : GoStr) (vols : List GoStr) (st : BuilderState)
        (c : Option Nat) (s w0 : GoStr) (args : List GoStr),
        fields s = w0 :: args →
        decodeDirective w0 ≠ .fromD → decodeDirective w0 ≠ .runD →
        decodeDirective w0 ≠ .addD → decodeDirective w0 ≠ .copyD →
        execStatement d id vols { st with container := c } s =
          withContainer c (execStatement d id vols st s)) ∧
    (∀ (d : Driver) (id : GoStr) (vols : List GoStr) (st : BuilderState),
        st.container = none →
        execStatement d id vols st (gs "ENV A=1") =
          (.ok { st with
                 env := st.env ++ [gs "A=1"]
                 manifest := { st.manifest with
                               env := st.manifest.env ++ [gs "A=1"] } }, [])) := by
  refine ⟨?_, ?_, ?_, ?_, ?_⟩
  · intro d id vols st s args hc hf
    simp [execStatement, hf, decode_RUN, hc]
  · intro d id vols st s args hc hf
    rcases args with _ | ⟨a, _ | ⟨b, rest⟩⟩
    · simp [execStatement, hf, decode_ADD]
    · simp [execStatement, hf, decode_ADD]
    · simp [execStatement, hf, decode_ADD, addFiles, hc]
  · intro d id vols st s args hc hf
    rcases args with _ | ⟨a, _ | ⟨b, rest⟩⟩
    · simp [execStatement, hf, decode_COPY]
    · simp [execStatement, hf, decode_COPY]
    · simp [execStatement, hf, decode_COPY, addFiles, hc]
  · intro d id vols st c s w0 args hf h1 h2 h3 h4
    exact execStatement_container_oblivious d id vols st c s w0 args hf h1 h2 h3 h4
  · intro d id vols st hc
    exact execStatement_env d id vols st (gs "ENV A=1") [gs "A=1"] [gs "A=1"]
      (by decide) (by decide)

/-- C1 witness: RUN on the fresh (container-less) state errors with the
no-container message and an empty event trace (first conjunct applied), and
WORKDIR behaves identically with the handle removed and with it present
(fourth conjunct applied at a concrete state and statement). -/
theorem C1_witness :
    execStatement okDriver (gs "t") [] initState (gs "RUN echo") =
      (.err noContainerMsg, []) ∧
    execStatement okDriver (gs "t") []
        { { initState with container := some 5 } with container := none }
        (gs "WORKDIR /srv") =
      withContainer none
        (execStatement okDriver (gs "t") [] { initState with container := some 5 }
          (gs "WORKDIR /srv")) :=
  ⟨C1_container_check_only_for_run.1 okDriver (gs "t") [] initState (gs "RUN echo")
      [gs "echo"] rfl (by decide),
   C1_container_check_only_for_run.2.2.2.1 okDriver (gs "t") []
      { initState with container := some 5 } none (gs "WORKDIR /srv")
      (gs "WORKDIR") [gs "/srv"] (by decide) (by decide) (by decide) (by decide)
      (by decide)⟩

/-- C4 counterexample: the script `FROM base; CMD; CMD run` contains two
statements drawn from {CMD, ENTRYPOINT}, yet Build succeeds: the first CMD
carries no arguments, so it sets the entry point to the empty sequence and
the "already defined" check does not fire at the second CMD. -/
theorem C4_counterexample :
    (build okDriver (gs "t") [gs "vol"] [gs "FROM base", gs "CMD", gs "CMD run"]).1 =
      Res.ok () := by decide

/-- C4 (amended): for two statements drawn from {CMD, ENTRYPOINT} in any
combination and order, executed from a state whose entry point is unset,
Build fails with the fatal already-defined error at the second statement
provided the first carries at least one argument (an argument-less first
occurrence leaves the entry point empty and disarms the check). -/
theorem C4_second_entrypoint_fails (d : Driver) (id : GoStr) (vols : List GoStr)
    (st : BuilderState) (s1 s2 k1 k2 a1 : GoStr) (t1 t2 : List GoStr)
    (hk1 : k1 = gs "CMD" ∨ k1 = gs "ENTRYPOINT")
    (hk2 : k2 = gs "CMD" ∨ k2 = gs "ENTRYPOINT")
    (h1 : fields s1 = k1 :: a1 :: t1) (h2 : fields s2 = k2 :: t2)
    (hep : st.manifest.entryPoint = []) :
    buildLoop d id vols st [s1, s2] = (.err entryPointMsg, []) := by
  have e1 : execStatement d id vols st s1 =
      (.ok { st with manifest := { st.manifest with entryPoint := a1 :: t1 } }, []) := by
    rcases hk1 with rfl | rfl
    · simp [execStatement, h1, decode_CMD, hep]
    · simp [execStatement, h1, decode_ENTRYPOINT, hep]
  have e2 : execStatement d id vols
      { st with manifest := { st.manifest with entryPoint := a1 :: t1 } } s2 =
      (.err entryPointMsg, []) := by
    rcases hk2 with rfl | rfl
    · simp [execStatement, h2, decode_CMD]
    · simp [execStatement, h2, decode_ENTRYPOINT]
  simp [buildLoop, e1, e2]

/-- C4 witness: `CMD run` followed by `ENTRYPOINT x` fails at the second
statement. -/
theorem C4_witness :
    buildLoop okDriver (gs "t") [] initState [gs "CMD run", gs "ENTRYPOINT x"] =
      (.err entryPointMsg, []) :=
  C4_second_entrypoint_fails okDriver (gs "t") [] initState (gs "CMD run")
    (gs "ENTRYPOINT x") (gs "CMD") (gs "ENTRYPOINT") (gs "run") [] [gs "x"]
    (Or.inl rfl) (Or.inr rfl) (by decide) (by decide) rfl

/-! ### FROM clone-loop lemmas -/

/-- The FROM clone loop never executes an in-container command. -/
lemma cloneLoop_no_run (d : Driver) (name id : GoStr) :
    ∀ (vols : List GoStr) (h0 : Option Nat),
      (cloneLoop d name id vols h0).2.any isRunEvent = false := by
  intro vols
  induction vols with
  | nil => intro h0; simp [cloneLoop]
  | cons v vs ih =>
    intro h0
    cases hcl : d.cloneAndStart name id v with
    | error e => simp [cloneLoop, hcl, isRunEvent]
    | ok hdl => simp [cloneLoop, hcl, isRunEvent, ih (some hdl)]

/-- The FROM clone loop either fails with the clone error, or succeeds; on
success over a nonempty volume list the resulting handle is present. -/
lemma cloneLoop_result (d : Driver) (name id : GoStr) :
    ∀ (vols : List GoStr) (h0 : Option Nat),
      (∃ e tr, cloneLoop d name id vols h0 = (.err e, tr)) ∨
      (∃ h tr, cloneLoop d name id vols h0 = (.ok h, tr) ∧
        (vols = [] → h = h0) ∧ (vols ≠ [] → ∃ n, h = some n)) := by
  intro vols
  induction vols with
  | nil =>
    intro h0
    right
    exact ⟨h0, [], rfl, fun _ => rfl, fun hne => absurd rfl hne⟩
  | cons v vs ih =>
    intro h0
    cases hcl : d.cloneAndStart name id v with
    | error e =>
      left
      exact ⟨e, [.cloneEv name v], by simp [cloneLoop, hcl]⟩
    | ok hdl =>
      rcases ih (some hdl) with ⟨e, tr, htr⟩ | ⟨h, tr, htr, hnil, hne⟩
      · left
        exact ⟨e, .cloneEv name v :: tr, by simp [cloneLoop, hcl, htr]⟩
      · right
        refine ⟨h, .cloneEv name v :: tr, by simp [cloneLoop, hcl, htr],
          fun hcontra => by simp at hcontra, fun _ => ?_⟩
        cases vs with
        | nil => exact ⟨hdl, hnil rfl⟩
        | cons v2 vs2 => exact hne (by simp)

/-- C5 counterexample: the script `FROM base; RUN echo hi; FROM b` contains
two FROM directives, and Build does fail at the second FROM, but only after
the RUN command executed — so the failure does not occur before any command
executes. -/
theorem C5_counterexample :
    (build okDriver (gs "t") [gs "vol"]
        [gs "FROM base", gs "RUN echo hi", gs "FROM b"]).1 = Res.err multiFromMsg ∧
    (build okDriver (gs "t") [gs "vol"]
        [gs "FROM base", gs "RUN echo hi", gs "FROM b"]).2.any isRunEvent = true := by
  decide

/-- C5 (amended): when the volume list is nonempty and the first two
statements of the script are FROM directives (the first carrying its
base-image argument), the build fails — at the first FROM if a clone fails,
otherwise with the multiple-FROM hard error at the second FROM — and no
in-container command runs before the failure.  (A RUN between the two FROM
directives, as in the counterexample, executes before the failure; with an
empty volume list the first FROM leaves the handle absent and the second
FROM is not an error.) -/
theorem C5_double_from_fails (d : Driver) (id : GoStr) (vols : List GoStr)
    (st : BuilderState) (s1 s2 a1 : GoStr) (t1 t2 : List GoStr) (rest : List GoStr)
    (hv : vols ≠ []) (hc : st.container = none)
    (h1 : fields s1 = gs "FROM" :: a1 :: t1) (h2 : fields s2 = gs "FROM" :: t2) :
    (∃ e, (buildLoop d id vols st (s1 :: s2 :: rest)).1 = Res.err e) ∧
    (buildLoop d id vols st (s1 :: s2 :: rest)).2.any isRunEvent = false := by
  have hnorun := cloneLoop_no_run d (d.parentName a1) id vols none
  rcases cloneLoop_result d (d.parentName a1) id vols none with
    ⟨e, tr, htr⟩ | ⟨h, tr, htr, _, hne⟩
  · have e1 : execStatement d id vols st s1 = (.err e, tr) := by
      simp [execStatement, h1, decode_FROM, hc, htr]
    rw [htr] at hnorun
    constructor
    · exact ⟨e, by simp [buildLoop, e1]⟩
    · simpa [buildLoop, e1] using hnorun
  · rcases hne hv with ⟨n, rfl⟩
    rw [htr] at hnorun
    cases hld : d.loadManifest (d.parentName a1) with
    | ok m =>
      have e1 : execStatement d id vols st s1 =
          (.ok { st with container := some n, manifest := m },
           tr ++ [.loadEv (d.parentName a1)]) := by
        simp [execStatement, h1, decode_FROM, hc, htr, hld]
      have e2 : execStatement d id vols
          { st with container := some n, manifest := m } s2 =
          (.err multiFromMsg, []) := by
        simp [execStatement, h2, decode_FROM]
      constructor
      · exact ⟨multiFromMsg, by simp [buildLoop, e1, e2]⟩
      · simp only [buildLoop, e1, e2]
        simpa [isRunEvent] using hnorun
    | error err =>
      have e1 : execStatement d id vols st s1 =
          (.ok { st with container := some n },
           tr ++ [.loadEv (d.parentName a1)]) := by
        simp [execStatement, h1, decode_FROM, hc, htr, hld]
      have e2 : execStatement d id vols { st with container := some n } s2 =
          (.err multiFromMsg, []) := by
        simp [execStatement, h2, decode_FROM]
      constructor
      · exact ⟨multiFromMsg, by simp [buildLoop, e1, e2]⟩
      · simp only [buildLoop, e1, e2]
        simpa [isRunEvent] using hnorun

/-- C5 witness: two adjacent FROM statements with one volume fail without
any command event. -/
theorem C5_witness :
    (∃ e, (buildLoop okDriver (gs "t") [gs "v"] initState
        [gs "FROM a", gs "FROM b"]).1 = Res.err e) ∧
    (buildLoop okDriver (gs "t") [gs "v"] initState
        [gs "FROM a", gs "FROM b"]).2.any isRunEvent = false :=
  C5_double_from_fails okDriver (gs "t") [gs "v"] initState (gs "FROM a")
    (gs "FROM b") (gs "a") [] [gs "b"] [] (by decide) rfl (by decide) (by decide)

/-- C8 counterexample: the harness also returns an error when writing the
script file fails — here the driver would report a successful execution with
exit code 0, yet `RunCommand` returns the write error, refuting the claimed
"error if and only if execution error or non-zero exit". -/
theorem C8_counterexample :
    (runCommand failWriteDriver { initState with container := some 0 } [gs "true"]).1 =
      Res.err (gs "disk full") ∧
    failWriteDriver.runCommandStatus 0
      (scriptBody { initState with container := some 0 } [gs "true"]) =
      Except.ok 0 := by decide

/-- C8 (amended): the generated script consists, in order, of the shebang
line, one export line per environment entry, a cd line iff a working
directory is set, a su line iff a user is set — each terminated by a
newline — followed by the space-joined command tokens as the final line
(first conjunct); and the harness returns an error if and only if writing
the script file fails, the driver reports an execution error, or the exit
code is non-zero (second conjunct). -/
theorem C8_script_shape_and_error_classification :
    (∀ (st : BuilderState) (cmd : List GoStr),
      scriptBody st cmd =
        ((gs "#!/bin/bash" :: st.env.map (fun v => gs "export " ++ v)
          ++ (if st.cwd ≠ [] then [gs "cd " ++ st.cwd] else [])
          ++ (if st.manifest.user ≠ [] then [gs "su - " ++ st.manifest.user] else [])).map
            (fun l => l ++ gs "\n")).flatten ++ joinSpace cmd) ∧
    (∀ (d : Driver) (st : BuilderState) (cmd : List GoStr) (hn : Nat),
      st.container = some hn →
      ((∃ e, (runCommand d st cmd).1 = Res.err e) ↔
        (∃ e, d.writeFile (joinPath (d.configRootfs hn) (gs "/tmp/dockerfile.sh"))
            (scriptBody st cmd) = some e) ∨
        (∃ e, d.runCommandStatus hn (scriptBody st cmd) = Except.error e) ∨
        (∃ c, d.runCommandStatus hn (scriptBody st cmd) = Except.ok c ∧ c ≠ 0))) := by
  constructor
  · intro st cmd
    have hsb : gs "#!/bin/bash\n" = gs "#!/bin/bash" ++ gs "\n" := by decide
    have hmap : List.map ((fun l => l ++ gs "\n") ∘ fun v => gs "export " ++ v) st.env =
        List.map (fun v => gs "export " ++ (v ++ gs "\n")) st.env := by
      induction st.env with
      | nil => rfl
      | cons v vs ih =>
        simp only [List.map_cons, Function.comp_apply, ih, List.append_assoc]
    simp only [scriptBody, hsb, List.map_append, List.map_cons, List.flatten_cons,
      List.flatten_append, List.map_map]
    split_ifs <;> simp [List.append_assoc, hmap]
  · intro d st cmd hn hc
    simp only [runCommand, hc]
    cases e1 : d.writeFile (joinPath (d.configRootfs hn) (gs "/tmp/dockerfile.sh"))
        (scriptBody st cmd) with
    | some e => simp [e1]
    | none =>
      cases e2 : d.runCommandStatus hn (scriptBody st cmd) with
      | error e => simp [e2]
      | ok code =>
        by_cases hcode : code = 0
        · simp [e2, hcode]
        · simp [e2, hcode]

/-- C8 witness: the classification instantiated on the all-succeeding
driver. -/
theorem C8_witness :
    (∃ e, (runCommand okDriver { initState with container := some 0 } [gs "true"]).1 =
        Res.err e) ↔
      (∃ e, okDriver.writeFile
          (joinPath (okDriver.configRootfs 0) (gs "/tmp/dockerfile.sh"))
          (scriptBody { initState with container := some 0 } [gs "true"]) = some e) ∨
      (∃ e, okDriver.runCommandStatus 0
          (scriptBody { initState with container := some 0 } [gs "true"]) =
          Except.error e) ∨
      (∃ c, okDriver.runCommandStatus 0
          (scriptBody { initState with container := some 0 } [gs "true"]) =
          Except.ok c ∧ c ≠ 0) :=
  C8_script_shape_and_error_classification.2 okDriver
    { initState with container := some 0 } [gs "true"] 0 rfl
